import Mathlib

/-!
Shallow embedding of the mssql-schema-sync engine (sync.py).

The embedding models, faithfully to the source:
  - the create-or-alter normalization applied in fetch_database_objects
    (Python re.sub with patterns of the shape \bCREATE\s+KW\b, IGNORECASE,
    count=1), as a leftmost-match single substitution over char lists;
  - TYPE_FOLDERS and the diff engine prepare_commit_actions;
  - get_databases (namespace resolution), the orchestrator loop of main,
    and commit_to_gitlab.

Strings are Lean Strings (lists of chars); the ASCII fragments of the
Python \w, \s classes and IGNORECASE folding are used, which agree with
Python on the ASCII source texts involved.  Sets of tracked files are
modelled as lists enumerating the set, so that facts that depend only on
membership can be separated from facts that depend on enumeration order.
-/

/-- Python `\s` on ASCII: space, tab, newline, carriage return, vertical tab, form feed. -/
def isPySpace (c : Char) : Bool :=
  c = ' ' || c = '\t' || c = '\n' || c = '\r' || c = '\x0b' || c = '\x0c'

/-- Python `\w` on ASCII: letters, digits, underscore. -/
def isWordChar (c : Char) : Bool :=
  ('a' ≤ c && c ≤ 'z') || ('A' ≤ c && c ≤ 'Z') || ('0' ≤ c && c ≤ '9') || c = '_'

/-- ASCII lowercasing, as used by IGNORECASE matching on ASCII patterns. -/
def lowerAscii (c : Char) : Char :=
  if 'A' ≤ c && c ≤ 'Z' then Char.ofNat (c.toNat + 32) else c

/-- Python str.strip(): drop leading and trailing whitespace. -/
def pyStrip (s : String) : String :=
  ⟨((s.data.dropWhile isPySpace).reverse.dropWhile isPySpace).reverse⟩

/-- Python str.startswith(pfx). -/
def startsWithPy (s pfx : String) : Bool :=
  pfx.data.isPrefixOf s.data

/-- Case-insensitively consume the keyword `kw` from the front of `s`. -/
def dropPrefixCI : List Char → List Char → Option (List Char)
  | [], s => some s
  | _ :: _, [] => none
  | k :: ks, c :: cs => if lowerAscii c = lowerAscii k then dropPrefixCI ks cs else none

/-- Consume a maximal nonempty run of whitespace (the regex `\s+`; maximal munch is
exact here because the keyword that follows starts with a non-space char). -/
def dropSpaces1 : List Char → Option (List Char)
  | [] => none
  | c :: cs => if isPySpace c then some (cs.dropWhile isPySpace) else none

/-- Word-boundary test on the right edge of a match (`\b` after the keyword):
the next char is a non-word char, or the string ends. -/
def rightBoundary : List Char → Bool
  | [] => true
  | c :: _ => !isWordChar c

/-- Try to match `CREATE\s+kw2\b` at the head of `s` (the `\b` on the left is
checked by the scanner); returns the tail after the matched region. -/
def matchTail (kw2 : List Char) (s : List Char) : Option (List Char) :=
  match dropPrefixCI "CREATE".data s with
  | none => none
  | some s1 =>
    match dropSpaces1 s1 with
    | none => none
    | some s2 =>
      match dropPrefixCI kw2 s2 with
      | none => none
      | some s3 => if rightBoundary s3 then some s3 else none

/-- Leftmost single substitution of `\bCREATE\s+kw2\b` by `repl`
(Python re.sub with count=1): scan left to right carrying whether the
previous char is a word char (for the left `\b`); on the first match,
emit the replacement and the unscanned tail. -/
def subFirstAux (kw2 repl : List Char) : Bool → List Char → List Char
  | _, [] => []
  | false, c :: cs =>
    match matchTail kw2 (c :: cs) with
    | some tail => repl ++ tail
    | none => c :: subFirstAux kw2 repl (isWordChar c) cs
  | true, c :: cs => c :: subFirstAux kw2 repl (isWordChar c) cs

/-- Whether `\bCREATE\s+kw2\b` matches anywhere (same scan as `subFirstAux`). -/
def hasMatchAux (kw2 : List Char) : Bool → List Char → Bool
  | _, [] => false
  | false, c :: cs => (matchTail kw2 (c :: cs)).isSome || hasMatchAux kw2 (isWordChar c) cs
  | true, c :: cs => hasMatchAux kw2 (isWordChar c) cs

/-- String-level re.sub(rb"\bCREATE\s+kw2\b", repl, s, IGNORECASE, count=1). -/
def reSubCreate (kw2 repl : String) (s : String) : String :=
  ⟨subFirstAux kw2.data repl.data false s.data⟩

/-- String-level match test for `\bCREATE\s+kw2\b`. -/
def hasCreateMatch (kw2 : String) (s : String) : Bool :=
  hasMatchAux kw2.data false s.data

/-- The normalization applied per row in fetch_database_objects (sync.py lines
141-161): for a truthy definition, branch on the stripped object type and
rewrite the plain creation clause to CREATE OR ALTER, first occurrence only;
P gets both the PROCEDURE and the PROC spelling, in that order. -/
def normalize_definition (object_type : String) (definition : Option String) : Option String :=
  match definition with
  | none => none
  | some d =>
    if d = "" then some d
    else
      let obj_type := pyStrip object_type
      if obj_type = "P" then
        let d1 := reSubCreate "PROCEDURE" "CREATE OR ALTER PROCEDURE" d
        let d2 := reSubCreate "PROC" "CREATE OR ALTER PROC" d1
        some d2
      else if obj_type = "FN" ∨ obj_type = "IF" ∨ obj_type = "TF" then
        some (reSubCreate "FUNCTION" "CREATE OR ALTER FUNCTION" d)
      else if obj_type = "V" then
        some (reSubCreate "VIEW" "CREATE OR ALTER VIEW" d)
      else if obj_type = "TR" then
        some (reSubCreate "TRIGGER" "CREATE OR ALTER TRIGGER" d)
      else some d

/-- One fetched object row: (schema_name, object_name, object_type, definition). -/
structure ProcRow where
  schema_name : String
  object_name : String
  object_type : String
  definition : Option String
deriving DecidableEq

/-- One fetched table row: (schema_name, table_name, ddl). -/
structure TableRow where
  schema_name : String
  table_name : String
  ddl : Option String
deriving DecidableEq

/-- The post-processing half of fetch_database_objects: normalize each row
definition, keeping the other fields. -/
def fetch_database_objects_post (rows : List ProcRow) : List ProcRow :=
  rows.map (fun r => { r with definition := normalize_definition r.object_type r.definition })

/-- TYPE_FOLDERS from sync.py. -/
def TYPE_FOLDERS : List (String × String) :=
  [("V", "views"), ("P", "procedures"), ("FN", "others"),
   ("IF", "others"), ("TF", "others"), ("TR", "others")]

/-- TYPE_FOLDERS.get(t, "procedures"). -/
def typeFolder (t : String) : String :=
  (TYPE_FOLDERS.lookup t).getD "procedures"

/-- The action field of a commit-action dict. -/
inductive ActionKind
  | create
  | update
  | delete
deriving DecidableEq

/-- A GitLab commit-action dict; delete actions carry no content key. -/
structure CommitAction where
  action : ActionKind
  file_path : String
  content : Option String
deriving DecidableEq

/-- Path of an object file: {db}/{folder}/{schema}.{name}.sql. -/
def objPath (db : String) (r : ProcRow) : String :=
  db ++ "/" ++ typeFolder (pyStrip r.object_type) ++ "/" ++ r.schema_name ++ "." ++ r.object_name ++ ".sql"

/-- Path of a table file: {db}/tables/{schema}.{name}.sql. -/
def tablePath (db : String) (r : TableRow) : String :=
  db ++ "/tables/" ++ r.schema_name ++ "." ++ r.table_name ++ ".sql"

/-- The update-or-create action emitted for one object row. -/
def procAct (db : String) (ex : List String) (r : ProcRow) : CommitAction :=
  { action := if objPath db r ∈ ex then ActionKind.update else ActionKind.create
    file_path := objPath db r
    content := some (r.definition.getD "") }

/-- The update-or-create action emitted for one table row. -/
def tblAct (db : String) (ex : List String) (r : TableRow) : CommitAction :=
  { action := if tablePath db r ∈ ex then ActionKind.update else ActionKind.create
    file_path := tablePath db r
    content := some (r.ddl.getD "") }

/-- The delete action emitted for one stale path. -/
def deleteAct (f : String) : CommitAction :=
  { action := ActionKind.delete, file_path := f, content := none }

/-- prepare_commit_actions (sync.py lines 270-321): two loops appending one
update-or-create action and one current path per row, then deletes for the
existing files under this namespace folder that are not current paths.
Returns (actions, total_objects, deleted_count). -/
def prepare_commit_actions (database_name : String) (proc_rows : List ProcRow)
    (table_rows : List TableRow) (existing_files : List String) :
    List CommitAction × Nat × Nat :=
  let step1 := proc_rows.foldl
    (fun st r => (st.1 ++ [procAct database_name existing_files r], st.2 ++ [objPath database_name r]))
    (([] : List CommitAction), ([] : List String))
  let step2 := table_rows.foldl
    (fun st r => (st.1 ++ [tblAct database_name existing_files r], st.2 ++ [tablePath database_name r]))
    step1
  let current_files := step2.2
  let db_existing_files := existing_files.filter (fun f => startsWithPy f (database_name ++ "/"))
  let deleted_files := db_existing_files.filter (fun f => decide (f ∉ current_files))
  (step2.1 ++ deleted_files.map deleteAct,
   proc_rows.length + table_rows.length,
   deleted_files.length)

/-- The list of paths computed for the current run (the current_files set). -/
def currentPathsList (db : String) (pr : List ProcRow) (tr : List TableRow) : List String :=
  pr.map (objPath db) ++ tr.map (tablePath db)

/-- The create-or-update portion of the action list. -/
def cuActions (db : String) (pr : List ProcRow) (tr : List TableRow) (ex : List String) :
    List CommitAction :=
  pr.map (procAct db ex) ++ tr.map (tblAct db ex)

/-- The stale files of this namespace: existing, under the namespace folder,
not among the current paths; enumerated in the order of `ex`. -/
def deletedFiles (db : String) (pr : List ProcRow) (tr : List TableRow) (ex : List String) :
    List String :=
  (ex.filter (fun f => startsWithPy f (db ++ "/"))).filter
    (fun f => decide (f ∉ currentPathsList db pr tr))

/-- One multi-file commit request, as submitted by project.commits.create. -/
structure CommitRequest where
  branch : String
  commit_message : String
  actions : List CommitAction
deriving DecidableEq

/-- commit_to_gitlab (sync.py lines 323-348): a no-op on an empty action list,
otherwise exactly one request carrying the full action list. -/
def commit_to_gitlab (actions : List CommitAction) (branch commit_message : String) :
    Option CommitRequest :=
  if actions.isEmpty then none
  else some { branch := branch, commit_message := commit_message, actions := actions }

/-- get_databases (sync.py lines 81-105): specific returns the configured list;
all returns the server list; all_except filters the server list; any other
mode raises ValueError. `serverDbs` models the rows of the sys.databases query. -/
def get_databases (mode : String) (databases exclude_databases serverDbs : List String) :
    Except String (List String) :=
  if mode = "specific" then Except.ok databases
  else if mode = "all" then Except.ok serverDbs
  else if mode = "all_except" then
    Except.ok (serverDbs.filter (fun db => decide (db ∉ exclude_databases)))
  else Except.error ("Invalid DATABASE_MODE: " ++ mode)

/-- What one namespace fetch yields when it succeeds: the normalized object
rows and the table rows. -/
structure FetchResult where
  proc_rows : List ProcRow
  table_rows : List TableRow

/-- Whether an Except is a success. -/
def isOkE {α : Type} : Except String α → Bool
  | Except.ok _ => true
  | Except.error _ => false

/-- The per-namespace loop of main (sync.py lines 380-411): a failing fetch is
caught and skipped (contributing nothing), a succeeding one appends its
actions and records (db, total_objects, deleted_count). -/
def processDatabases (dbs : List String) (fetch : String → Except String FetchResult)
    (existing_files : List String) : List CommitAction × List (String × Nat × Nat) :=
  match dbs with
  | [] => ([], [])
  | db :: rest =>
    match fetch db with
    | Except.error _ => processDatabases rest fetch existing_files
    | Except.ok res =>
      let p := prepare_commit_actions db res.proc_rows res.table_rows existing_files
      let r := processDatabases rest fetch existing_files
      (p.1 ++ r.1, (db, p.2.1, p.2.2) :: r.2)

/-- The run skeleton of main: resolve namespaces (aborting on resolution
failure), process each namespace against one shared existing-files snapshot,
then hand the merged action list to the commit applier once. -/
def runSync (mode : String) (databases exclude_databases serverDbs : List String)
    (fetch : String → Except String FetchResult) (existing_files : List String)
    (branch commit_message : String) :
    Except String (Option CommitRequest × List (String × Nat × Nat)) :=
  match get_databases mode databases exclude_databases serverDbs with
  | Except.error e => Except.error e
  | Except.ok dbs =>
    let p := processDatabases dbs fetch existing_files
    Except.ok (commit_to_gitlab p.1 branch commit_message, p.2)

/-- The state visible to prepare_commit_actions: its three collection arguments. -/
structure SyncSnapshot where
  proc_rows : List ProcRow
  table_rows : List TableRow
  existing_files : List String

/-- State-passing form of prepare_commit_actions: the body only reads its
arguments (membership tests, comprehensions and set difference all build new
collections in the source), so the translated state is returned unchanged. -/
def prepare_commit_actions_st (db : String) (s : SyncSnapshot) :
    (List CommitAction × Nat × Nat) × SyncSnapshot :=
  (prepare_commit_actions db s.proc_rows s.table_rows s.existing_files, s)

/-- Whether the normalized definition still contains a plain creation clause
of its kind (the pattern that normalization rewrites). -/
def remainingCreateMatch (object_type : String) (definition : Option String) : Bool :=
  match definition with
  | none => false
  | some d =>
    let obj_type := pyStrip object_type
    if obj_type = "P" then hasCreateMatch "PROCEDURE" d || hasCreateMatch "PROC" d
    else if obj_type = "FN" ∨ obj_type = "IF" ∨ obj_type = "TF" then hasCreateMatch "FUNCTION" d
    else if obj_type = "V" then hasCreateMatch "VIEW" d
    else if obj_type = "TR" then hasCreateMatch "TRIGGER" d
    else false

/-- A fetch oracle where every namespace fetch succeeds with no rows. -/
def fetchOkEmpty : String → Except String FetchResult :=
  fun _ => Except.ok { proc_rows := [], table_rows := [] }

/-- A fetch oracle where the namespace "bad" fails to connect and every other
namespace succeeds with no rows. -/
def fetchBadOne : String → Except String FetchResult :=
  fun d => if d = "bad" then Except.error "connection failed" else Except.ok { proc_rows := [], table_rows := [] }

theorem foldl_build {ρ : Type} (f : ρ → CommitAction) (g : ρ → String) (rows : List ρ) :
    ∀ acc : List CommitAction × List String,
      rows.foldl (fun st r => (st.1 ++ [f r], st.2 ++ [g r])) acc
        = (acc.1 ++ rows.map f, acc.2 ++ rows.map g) := by
  induction rows with
  | nil => intro acc; simp
  | cons r rs ih => intro acc; simp [ih, List.append_assoc]

theorem prepare_commit_actions_eq (db : String) (pr : List ProcRow) (tr : List TableRow)
    (ex : List String) :
    prepare_commit_actions db pr tr ex =
      (cuActions db pr tr ex ++ (deletedFiles db pr tr ex).map deleteAct,
       pr.length + tr.length, (deletedFiles db pr tr ex).length) := by
  simp only [prepare_commit_actions, foldl_build]
  simp [cuActions, currentPathsList, deletedFiles]

/-- C1: every Delete action of prepare_commit_actions names an existing path
under the namespace folder that is not among the paths computed for this
run, so no other namespace's files are ever deleted. -/
theorem prepare_delete_scoped (db : String) (pr : List ProcRow) (tr : List TableRow)
    (ex : List String) (a : CommitAction) (ha : a ∈ (prepare_commit_actions db pr tr ex).1)
    (hdel : a.action = ActionKind.delete) :
    a.file_path ∈ ex ∧ startsWithPy a.file_path (db ++ "/") = true ∧
      a.file_path ∉ currentPathsList db pr tr := by
  rw [prepare_commit_actions_eq] at ha
  rcases List.mem_append.mp ha with hcu | hdl
  · exfalso
    simp only [cuActions] at hcu
    rcases List.mem_append.mp hcu with h | h
    · obtain ⟨r, _, rfl⟩ := List.mem_map.mp h
      simp only [procAct] at hdel
      split at hdel <;> simp at hdel
    · obtain ⟨r, _, rfl⟩ := List.mem_map.mp h
      simp only [tblAct] at hdel
      split at hdel <;> simp at hdel
  · obtain ⟨f, hf, rfl⟩ := List.mem_map.mp hdl
    simp only [deletedFiles] at hf
    rw [List.mem_filter] at hf
    obtain ⟨hf1, hnc⟩ := hf
    rw [List.mem_filter] at hf1
    exact ⟨hf1.1, hf1.2, by simpa using hnc⟩

/-- Witness for C1 at a concrete run with one table and one stale file next to
a foreign-namespace file. -/
theorem prepare_delete_scoped_witness :
    ((⟨ActionKind.delete, "db1/tables/dbo.Old.sql", none⟩ : CommitAction) ∈
        (prepare_commit_actions "db1" [] [⟨"dbo", "Users", some "CREATE TABLE y"⟩]
          ["db1/tables/dbo.Old.sql", "db2/tables/dbo.Keep.sql"]).1) ∧
      ("db1/tables/dbo.Old.sql" ∈ ["db1/tables/dbo.Old.sql", "db2/tables/dbo.Keep.sql"] ∧
        startsWithPy "db1/tables/dbo.Old.sql" ("db1" ++ "/") = true ∧
        "db1/tables/dbo.Old.sql" ∉
          currentPathsList "db1" [] [⟨"dbo", "Users", some "CREATE TABLE y"⟩]) :=
  ⟨by decide,
   prepare_delete_scoped "db1" [] [⟨"dbo", "Users", some "CREATE TABLE y"⟩]
     ["db1/tables/dbo.Old.sql", "db2/tables/dbo.Keep.sql"]
     ⟨ActionKind.delete, "db1/tables/dbo.Old.sql", none⟩ (by decide) (by decide)⟩

/-- C6: when the existing files under the namespace folder are, as a set,
exactly the paths computed for this run, every action is an Update. -/
theorem roundtrip_only_updates (db : String) (pr : List ProcRow) (tr : List TableRow)
    (ex : List String)
    (h1 : ∀ f ∈ ex.filter (fun f => startsWithPy f (db ++ "/")), f ∈ currentPathsList db pr tr)
    (h2 : ∀ f ∈ currentPathsList db pr tr, f ∈ ex.filter (fun f => startsWithPy f (db ++ "/"))) :
    ∀ a ∈ (prepare_commit_actions db pr tr ex).1, a.action = ActionKind.update := by
  intro a ha
  rw [prepare_commit_actions_eq] at ha
  rcases List.mem_append.mp ha with hcu | hdl
  · simp only [cuActions] at hcu
    rcases List.mem_append.mp hcu with h | h
    · obtain ⟨r, hr, rfl⟩ := List.mem_map.mp h
      have hin : objPath db r ∈ currentPathsList db pr tr := by
        simp only [currentPathsList, List.mem_append]
        exact Or.inl (List.mem_map.mpr ⟨r, hr, rfl⟩)
      have hex : objPath db r ∈ ex := (List.mem_filter.mp (h2 _ hin)).1
      simp [procAct, hex]
    · obtain ⟨r, hr, rfl⟩ := List.mem_map.mp h
      have hin : tablePath db r ∈ currentPathsList db pr tr := by
        simp only [currentPathsList, List.mem_append]
        exact Or.inr (List.mem_map.mpr ⟨r, hr, rfl⟩)
      have hex : tablePath db r ∈ ex := (List.mem_filter.mp (h2 _ hin)).1
      simp [tblAct, hex]
  · exfalso
    obtain ⟨f, hf, rfl⟩ := List.mem_map.mp hdl
    simp only [deletedFiles] at hf
    rw [List.mem_filter] at hf
    have hnc : f ∉ currentPathsList db pr tr := by simpa using hf.2
    exact hnc (h1 f hf.1)

/-- Witness for C6 at a concrete run whose existing files equal its computed paths. -/
theorem roundtrip_only_updates_witness :
    (∀ f ∈ (["db1/procedures/dbo.GetUsers.sql"].filter
        (fun f => startsWithPy f ("db1" ++ "/"))),
      f ∈ currentPathsList "db1" [⟨"dbo", "GetUsers", "P", some "x"⟩] []) ∧
    (∀ f ∈ currentPathsList "db1" [⟨"dbo", "GetUsers", "P", some "x"⟩] [],
      f ∈ (["db1/procedures/dbo.GetUsers.sql"].filter
        (fun f => startsWithPy f ("db1" ++ "/")))) ∧
    (∀ a ∈ (prepare_commit_actions "db1" [⟨"dbo", "GetUsers", "P", some "x"⟩] []
        ["db1/procedures/dbo.GetUsers.sql"]).1, a.action = ActionKind.update) :=
  ⟨by decide, by decide,
   roundtrip_only_updates "db1" [⟨"dbo", "GetUsers", "P", some "x"⟩] []
     ["db1/procedures/dbo.GetUsers.sql"] (by decide) (by decide)⟩

/-- C4: the action list is one update-or-create action per object row then per
table row (in row order) followed by the deletions; each object action sits at
{db}/{folder}/{schema}.{name}.sql with the folder from the kind mapping, each
table action at {db}/tables/{schema}.{name}.sql, the action is update exactly
when the path already exists, the content is the definition or reconstructed
DDL with null stored as empty content, and unmapped kinds fall back to the
procedures folder. -/
theorem prepare_actions_characterization (db : String) (pr : List ProcRow)
    (tr : List TableRow) (ex : List String) (r : ProcRow) (rt : TableRow) (t : String)
    (ht : t ∉ ["V", "P", "FN", "IF", "TF", "TR"]) :
    (prepare_commit_actions db pr tr ex).1
        = pr.map (procAct db ex) ++ tr.map (tblAct db ex)
            ++ (deletedFiles db pr tr ex).map deleteAct ∧
      procAct db ex r =
        { action := if objPath db r ∈ ex then ActionKind.update else ActionKind.create
          file_path := db ++ "/" ++ typeFolder (pyStrip r.object_type) ++ "/"
            ++ r.schema_name ++ "." ++ r.object_name ++ ".sql"
          content := some (r.definition.getD "") } ∧
      tblAct db ex rt =
        { action := if tablePath db rt ∈ ex then ActionKind.update else ActionKind.create
          file_path := db ++ "/tables/" ++ rt.schema_name ++ "." ++ rt.table_name ++ ".sql"
          content := some (rt.ddl.getD "") } ∧
      typeFolder t = "procedures" ∧
      typeFolder "V" = "views" ∧ typeFolder "P" = "procedures" ∧
      typeFolder "FN" = "others" ∧ typeFolder "IF" = "others" ∧
      typeFolder "TF" = "others" ∧ typeFolder "TR" = "others" := by
  refine ⟨?_, rfl, rfl, ?_, by decide, by decide, by decide, by decide, by decide, by decide⟩
  · rw [prepare_commit_actions_eq]
    simp [cuActions, List.append_assoc]
  · simp only [List.mem_cons, not_or] at ht
    obtain ⟨n1, n2, n3, n4, n5, n6, -⟩ := ht
    have b1 : (t == "V") = false := beq_eq_false_iff_ne.mpr n1
    have b2 : (t == "P") = false := beq_eq_false_iff_ne.mpr n2
    have b3 : (t == "FN") = false := beq_eq_false_iff_ne.mpr n3
    have b4 : (t == "IF") = false := beq_eq_false_iff_ne.mpr n4
    have b5 : (t == "TF") = false := beq_eq_false_iff_ne.mpr n5
    have b6 : (t == "TR") = false := beq_eq_false_iff_ne.mpr n6
    simp [typeFolder, TYPE_FOLDERS, List.lookup, b1, b2, b3, b4, b5, b6]

/-- Witness for C4 at a concrete run with one object row, one table row and an
unmapped kind. -/
theorem prepare_actions_characterization_witness :
    ("X" ∉ ["V", "P", "FN", "IF", "TF", "TR"]) ∧
    ((prepare_commit_actions "d" [⟨"s", "n", "P", none⟩] [⟨"s", "m", none⟩] []).1
        = [⟨"s", "n", "P", none⟩].map (procAct "d" [])
            ++ [⟨"s", "m", none⟩].map (tblAct "d" [])
            ++ (deletedFiles "d" [⟨"s", "n", "P", none⟩] [⟨"s", "m", none⟩] []).map deleteAct ∧
      procAct "d" [] ⟨"s", "n", "P", none⟩ =
        { action := if objPath "d" ⟨"s", "n", "P", none⟩ ∈ ([] : List String)
            then ActionKind.update else ActionKind.create
          file_path := "d" ++ "/" ++ typeFolder (pyStrip "P") ++ "/" ++ "s" ++ "." ++ "n" ++ ".sql"
          content := some (Option.getD none "") } ∧
      tblAct "d" [] ⟨"s", "m", none⟩ =
        { action := if tablePath "d" ⟨"s", "m", none⟩ ∈ ([] : List String)
            then ActionKind.update else ActionKind.create
          file_path := "d" ++ "/tables/" ++ "s" ++ "." ++ "m" ++ ".sql"
          content := some (Option.getD none "") } ∧
      typeFolder "X" = "procedures" ∧
      typeFolder "V" = "views" ∧ typeFolder "P" = "procedures" ∧
      typeFolder "FN" = "others" ∧ typeFolder "IF" = "others" ∧
      typeFolder "TF" = "others" ∧ typeFolder "TR" = "others") :=
  ⟨by decide,
   prepare_actions_characterization "d" [⟨"s", "n", "P", none⟩] [⟨"s", "m", none⟩] []
     ⟨"s", "n", "P", none⟩ ⟨"s", "m", none⟩ "X" (by decide)⟩

theorem subFirstAux_eq_of_no_match (kw2 repl : List Char) :
    ∀ (s : List Char) (prev : Bool), hasMatchAux kw2 prev s = false →
      subFirstAux kw2 repl prev s = s := by
  intro s
  induction s with
  | nil => intro prev _; cases prev <;> rfl
  | cons c cs ih =>
    intro prev h
    cases prev with
    | false =>
      simp only [hasMatchAux, Bool.or_eq_false_iff] at h
      cases hmt : matchTail kw2 (c :: cs) with
      | some tail => rw [hmt] at h; simp at h
      | none => simp [subFirstAux, hmt, ih _ h.2]
    | true =>
      simp only [hasMatchAux] at h
      simp [subFirstAux, ih _ h]

theorem reSubCreate_eq_of_no_match (kw2 repl s : String)
    (h : hasCreateMatch kw2 s = false) : reSubCreate kw2 repl s = s := by
  show String.mk (subFirstAux kw2.data repl.data false s.data) = s
  rw [subFirstAux_eq_of_no_match kw2.data repl.data s.data false h]

theorem normalize_fixed_of_no_match (t : String) (d : String)
    (h : remainingCreateMatch t (some d) = false) :
    normalize_definition t (some d) = some d := by
  by_cases hd : d = ""
  · simp [normalize_definition, hd]
  · simp only [remainingCreateMatch] at h
    simp only [normalize_definition, if_neg hd]
    by_cases hP : pyStrip t = "P"
    · rw [if_pos hP] at h
      rw [if_pos hP]
      rw [Bool.or_eq_false_iff] at h
      rw [reSubCreate_eq_of_no_match _ _ _ h.1, reSubCreate_eq_of_no_match _ _ _ h.2]
    · rw [if_neg hP] at h
      rw [if_neg hP]
      by_cases hF : pyStrip t = "FN" ∨ pyStrip t = "IF" ∨ pyStrip t = "TF"
      · rw [if_pos hF] at h
        rw [if_pos hF, reSubCreate_eq_of_no_match _ _ _ h]
      · rw [if_neg hF] at h
        rw [if_neg hF]
        by_cases hV : pyStrip t = "V"
        · rw [if_pos hV] at h
          rw [if_pos hV, reSubCreate_eq_of_no_match _ _ _ h]
        · rw [if_neg hV] at h
          rw [if_neg hV]
          by_cases hT : pyStrip t = "TR"
          · rw [if_pos hT] at h
            rw [if_pos hT, reSubCreate_eq_of_no_match _ _ _ h]
          · rw [if_neg hT]

/-- Counterexample to C2: with the plain creation clause occurring twice, the
first normalization pass rewrites only the first occurrence and the second
pass rewrites the second, so normalization is not idempotent. -/
theorem normalize_not_idempotent :
    normalize_definition "P"
        (normalize_definition "P"
          (some "CREATE PROCEDURE a AS SELECT 1; CREATE PROCEDURE b AS SELECT 2"))
      ≠ normalize_definition "P"
          (some "CREATE PROCEDURE a AS SELECT 1; CREATE PROCEDURE b AS SELECT 2") := by
  decide

/-- C2 (amended): normalization is idempotent on every definition whose once-
normalized text contains no further plain creation clause of its kind; in
particular on definitions whose creation clause occurs exactly once. -/
theorem normalize_idempotent_of_no_remaining_match (t : String) (x : Option String)
    (h : remainingCreateMatch t (normalize_definition t x) = false) :
    normalize_definition t (normalize_definition t x) = normalize_definition t x := by
  cases x with
  | none => rfl
  | some d =>
    cases hn : normalize_definition t (some d) with
    | none => rfl
    | some d2 =>
      rw [hn] at h
      exact normalize_fixed_of_no_match t d2 h

/-- Witness for the amended C2 at a concrete single-clause procedure definition. -/
theorem normalize_idempotent_witness :
    remainingCreateMatch "P"
        (normalize_definition "P" (some "CREATE PROCEDURE dbo.Foo AS SELECT 1")) = false ∧
      normalize_definition "P"
          (normalize_definition "P" (some "CREATE PROCEDURE dbo.Foo AS SELECT 1"))
        = normalize_definition "P" (some "CREATE PROCEDURE dbo.Foo AS SELECT 1") :=
  ⟨by decide,
   normalize_idempotent_of_no_remaining_match "P"
     (some "CREATE PROCEDURE dbo.Foo AS SELECT 1") (by decide)⟩

theorem subFirstAux_head_match (kw2 repl s tail : List Char)
    (h : matchTail kw2 s = some tail) :
    subFirstAux kw2 repl false s = repl ++ tail := by
  cases s with
  | nil =>
    have hnone : matchTail kw2 ([] : List Char) = none := rfl
    rw [hnone] at h
    cases h
  | cons c cs => simp [subFirstAux, h]

/-- C7: the plain creation clause is rewritten to the CREATE OR ALTER form
case-insensitively, only at its first occurrence, tolerating both the
PROCEDURE and the PROC spelling, and requiring a word boundary before CREATE;
for every tail, a definition beginning with the plain clause is rewritten to
begin with the or-alter clause, and a definition already in the or-alter form
stays unchanged. -/
theorem normalize_create_scenarios :
    (∀ rest : String, normalize_definition "FN" (some ("CREATE FUNCTION " ++ rest))
        = some ("CREATE OR ALTER FUNCTION " ++ rest)) ∧
      (∀ rest : String,
        hasCreateMatch "PROC" ("CREATE OR ALTER PROCEDURE dbo.Foo AS " ++ rest) = false →
        normalize_definition "P" (some ("CREATE PROCEDURE dbo.Foo AS " ++ rest))
          = some ("CREATE OR ALTER PROCEDURE dbo.Foo AS " ++ rest)) ∧
      normalize_definition "P" (some "CREATE PROCEDURE dbo.Foo AS SELECT 1")
        = some "CREATE OR ALTER PROCEDURE dbo.Foo AS SELECT 1" ∧
      normalize_definition "P" (some "CREATE OR ALTER PROCEDURE dbo.Foo AS SELECT 1")
        = some "CREATE OR ALTER PROCEDURE dbo.Foo AS SELECT 1" ∧
      normalize_definition "P" (some "create procedure dbo.Foo as select 1")
        = some "CREATE OR ALTER PROCEDURE dbo.Foo as select 1" ∧
      normalize_definition "P" (some "CREATE PROC dbo.Foo AS SELECT 1")
        = some "CREATE OR ALTER PROC dbo.Foo AS SELECT 1" ∧
      normalize_definition "FN" (some "CREATE FUNCTION f() CREATE FUNCTION g()")
        = some "CREATE OR ALTER FUNCTION f() CREATE FUNCTION g()" ∧
      normalize_definition "P" (some "XCREATE PROCEDURE dbo.Foo")
        = some "XCREATE PROCEDURE dbo.Foo" := by
  refine ⟨?_, ?_, by decide, by decide, by decide, by decide, by decide, by decide⟩
  · intro rest
    have hne : ("CREATE FUNCTION " ++ rest) ≠ "" := by
      intro hcon
      have h2 : "CREATE FUNCTION ".data ++ rest.data = ([] : List Char) := by
        have h3 := congrArg String.data hcon
        rwa [String.data_append] at h3
      rcases List.append_eq_nil.mp h2 with ⟨h4, -⟩
      exact absurd h4 (by decide)
    simp only [normalize_definition, if_neg hne]
    rw [if_neg (by decide : ¬ (pyStrip "FN" = "P")),
      if_pos (by decide : pyStrip "FN" = "FN" ∨ pyStrip "FN" = "IF" ∨ pyStrip "FN" = "TF")]
    show some (String.mk (subFirstAux "FUNCTION".data "CREATE OR ALTER FUNCTION".data false
      ("CREATE FUNCTION " ++ rest).data)) = _
    rw [String.data_append]
    have hm : matchTail "FUNCTION".data ("CREATE FUNCTION ".data ++ rest.data)
        = some (' ' :: rest.data) := rfl
    rw [subFirstAux_head_match _ _ _ _ hm]
    rfl
  · intro rest h
    have hne : ("CREATE PROCEDURE dbo.Foo AS " ++ rest) ≠ "" := by
      intro hcon
      have h2 : "CREATE PROCEDURE dbo.Foo AS ".data ++ rest.data = ([] : List Char) := by
        have h3 := congrArg String.data hcon
        rwa [String.data_append] at h3
      rcases List.append_eq_nil.mp h2 with ⟨h4, -⟩
      exact absurd h4 (by decide)
    simp only [normalize_definition, if_neg hne]
    rw [if_pos (by decide : pyStrip "P" = "P")]
    have h1 : reSubCreate "PROCEDURE" "CREATE OR ALTER PROCEDURE"
        ("CREATE PROCEDURE dbo.Foo AS " ++ rest)
        = "CREATE OR ALTER PROCEDURE dbo.Foo AS " ++ rest := by
      show String.mk (subFirstAux "PROCEDURE".data "CREATE OR ALTER PROCEDURE".data false
        ("CREATE PROCEDURE dbo.Foo AS " ++ rest).data) = _
      rw [String.data_append]
      have hm : matchTail "PROCEDURE".data ("CREATE PROCEDURE dbo.Foo AS ".data ++ rest.data)
          = some (" dbo.Foo AS ".data ++ rest.data) := rfl
      rw [subFirstAux_head_match _ _ _ _ hm]
      rfl
    rw [h1, reSubCreate_eq_of_no_match _ _ _ h]

/-- Witness for C7 instantiating its general conjuncts at a concrete tail. -/
theorem normalize_create_scenarios_witness :
    hasCreateMatch "PROC" ("CREATE OR ALTER PROCEDURE dbo.Foo AS " ++ "SELECT 1") = false ∧
      normalize_definition "FN" (some ("CREATE FUNCTION " ++ "f() AS RETURN 1"))
        = some ("CREATE OR ALTER FUNCTION " ++ "f() AS RETURN 1") ∧
      normalize_definition "P" (some ("CREATE PROCEDURE dbo.Foo AS " ++ "SELECT 1"))
        = some ("CREATE OR ALTER PROCEDURE dbo.Foo AS " ++ "SELECT 1") :=
  ⟨by decide, normalize_create_scenarios.1 "f() AS RETURN 1",
   normalize_create_scenarios.2.1 "SELECT 1" (by decide)⟩

/-- Counterexample to C3: in all_except mode with every server database
excluded, namespace resolution returns an empty set without raising, and the
run proceeds to a successful completion with no commit instead of aborting. -/
theorem get_databases_empty_proceeds :
    get_databases "all_except" ["YOUR_DB"] ["a"] ["a"] = Except.ok ([] : List String) ∧
      runSync "all_except" ["YOUR_DB"] ["a"] ["a"] fetchOkEmpty [] "main" "msg"
        = Except.ok (none, []) := by
  refine ⟨rfl, rfl⟩

/-- C3 (amended): namespace resolution fails only on an unknown selection
mode; an empty resolved set does not abort the run, which then proceeds with
zero namespaces, produces no actions and submits no commit. -/
theorem resolution_aborts_only_on_unknown_mode (mode : String)
    (databases exclude_databases serverDbs : List String)
    (fetch : String → Except String FetchResult) (existing_files : List String)
    (branch commit_message : String) :
    isOkE (get_databases mode databases exclude_databases serverDbs)
        = (mode == "specific" || mode == "all" || mode == "all_except") ∧
      (get_databases mode databases exclude_databases serverDbs = Except.ok [] →
        runSync mode databases exclude_databases serverDbs fetch existing_files
            branch commit_message = Except.ok (none, [])) := by
  constructor
  · by_cases h1 : mode = "specific"
    · simp [get_databases, isOkE, h1]
    · by_cases h2 : mode = "all"
      · simp [get_databases, isOkE, h1, h2]
      · by_cases h3 : mode = "all_except"
        · simp [get_databases, isOkE, h1, h2, h3]
        · simp [get_databases, isOkE, h1, h2, h3]
  · intro h
    simp only [runSync, h]
    rfl

/-- Witness for the amended C3 in all mode with an empty server list. -/
theorem resolution_aborts_only_on_unknown_mode_witness :
    get_databases "all" ["YOUR_DB"] [] [] = Except.ok [] ∧
      isOkE (get_databases "all" ["YOUR_DB"] [] [])
          = ("all" == "specific" || "all" == "all" || "all" == "all_except") ∧
      runSync "all" ["YOUR_DB"] [] [] fetchOkEmpty [] "main" "msg" = Except.ok (none, []) :=
  ⟨rfl,
   (resolution_aborts_only_on_unknown_mode "all" ["YOUR_DB"] [] [] fetchOkEmpty [] "main" "msg").1,
   (resolution_aborts_only_on_unknown_mode "all" ["YOUR_DB"] [] [] fetchOkEmpty [] "main" "msg").2
     rfl⟩

/-- C5: a namespace whose fetch fails is skipped by the orchestrator loop:
the run computes exactly what it would compute on the successful namespaces
alone, and the failed namespace has no entry in the per-namespace report. -/
theorem failed_namespace_isolated (dbs : List String)
    (fetch : String → Except String FetchResult) (ex : List String) :
    processDatabases dbs fetch ex
        = processDatabases (dbs.filter (fun d => isOkE (fetch d))) fetch ex ∧
      ∀ d, isOkE (fetch d) = false →
        ∀ s ∈ (processDatabases dbs fetch ex).2, s.1 ≠ d := by
  induction dbs with
  | nil =>
    refine ⟨rfl, ?_⟩
    intro d _ s hs
    simp [processDatabases] at hs
  | cons db rest ih =>
    refine ⟨?_, ?_⟩
    · cases hf : fetch db with
      | error e =>
        rw [List.filter_cons_of_neg]
        · simp only [processDatabases, hf]
          exact ih.1
        · rw [hf]
          simp [isOkE]
      | ok res =>
        rw [List.filter_cons_of_pos]
        · simp only [processDatabases, hf]
          rw [ih.1]
        · rw [hf]
          rfl
    · intro d hd s hs
      cases hf : fetch db with
      | error e =>
        simp only [processDatabases, hf] at hs
        exact ih.2 d hd s hs
      | ok res =>
        simp only [processDatabases, hf] at hs
        rcases List.mem_cons.mp hs with h | h
        · rw [h]
          intro hcon
          rw [← hcon] at hd
          rw [hf] at hd
          exact absurd hd (by simp [isOkE])
        · exact ih.2 d hd s h

/-- Witness for C5: the namespace bad fails to connect, good still runs, and
bad never appears in the report. -/
theorem failed_namespace_isolated_witness :
    isOkE (fetchBadOne "bad") = false ∧
      processDatabases ["bad", "good"] fetchBadOne []
          = processDatabases
              ((["bad", "good"]).filter (fun d => isOkE (fetchBadOne d))) fetchBadOne [] ∧
      ∀ s ∈ (processDatabases ["bad", "good"] fetchBadOne []).2, s.1 ≠ "bad" :=
  ⟨by decide, (failed_namespace_isolated ["bad", "good"] fetchBadOne []).1,
   (failed_namespace_isolated ["bad", "good"] fetchBadOne []).2 "bad" (by decide)⟩

/-- Counterexample to C8: two enumerations of the same existing-file set
(differing only in iteration order, as an unordered set permits) yield action
lists that differ in the order of their Delete actions. -/
theorem prepare_delete_order_enumeration_dependent :
    (["db1/a.sql", "db1/b.sql"] : List String).Perm ["db1/b.sql", "db1/a.sql"] ∧
      (prepare_commit_actions "db1" [] [] ["db1/a.sql", "db1/b.sql"]).1
        ≠ (prepare_commit_actions "db1" [] [] ["db1/b.sql", "db1/a.sql"]).1 := by
  constructor
  · exact List.Perm.swap _ _ _
  · decide

/-- C8 (amended): on the same rows and the same existing-file set the diff is
deterministic up to the enumeration order of the set: the update-or-create
actions are identical (in row order), the Delete actions and hence the whole
action list agree up to permutation, and the reported counts are equal. -/
theorem prepare_actions_perm_invariant (db : String) (pr : List ProcRow)
    (tr : List TableRow) (l1 l2 : List String) (h : l1.Perm l2) :
    cuActions db pr tr l1 = cuActions db pr tr l2 ∧
      (deletedFiles db pr tr l1).Perm (deletedFiles db pr tr l2) ∧
      ((prepare_commit_actions db pr tr l1).1).Perm ((prepare_commit_actions db pr tr l2).1) ∧
      (prepare_commit_actions db pr tr l1).2 = (prepare_commit_actions db pr tr l2).2 := by
  have hp : procAct db l1 = procAct db l2 := by
    funext r
    simp only [procAct, h.mem_iff]
  have ht : tblAct db l1 = tblAct db l2 := by
    funext r
    simp only [tblAct, h.mem_iff]
  have hcu : cuActions db pr tr l1 = cuActions db pr tr l2 := by
    simp only [cuActions, hp, ht]
  have hdel : (deletedFiles db pr tr l1).Perm (deletedFiles db pr tr l2) := by
    simp only [deletedFiles]
    exact (h.filter _).filter _
  refine ⟨hcu, hdel, ?_, ?_⟩
  · rw [prepare_commit_actions_eq, prepare_commit_actions_eq, hcu]
    exact List.Perm.append_left _ (hdel.map _)
  · rw [prepare_commit_actions_eq, prepare_commit_actions_eq, hdel.length_eq]

/-- Witness for the amended C8 at two enumerations of one two-file set. -/
theorem prepare_actions_perm_invariant_witness :
    (["db1/x.sql", "db1/y.sql"] : List String).Perm ["db1/y.sql", "db1/x.sql"] ∧
      (cuActions "db1" [] [] ["db1/x.sql", "db1/y.sql"]
          = cuActions "db1" [] [] ["db1/y.sql", "db1/x.sql"] ∧
        (deletedFiles "db1" [] [] ["db1/x.sql", "db1/y.sql"]).Perm
          (deletedFiles "db1" [] [] ["db1/y.sql", "db1/x.sql"]) ∧
        ((prepare_commit_actions "db1" [] [] ["db1/x.sql", "db1/y.sql"]).1).Perm
          ((prepare_commit_actions "db1" [] [] ["db1/y.sql", "db1/x.sql"]).1) ∧
        (prepare_commit_actions "db1" [] [] ["db1/x.sql", "db1/y.sql"]).2
          = (prepare_commit_actions "db1" [] [] ["db1/y.sql", "db1/x.sql"]).2) :=
  ⟨List.Perm.swap _ _ _,
   prepare_actions_perm_invariant "db1" [] [] _ _ (List.Perm.swap _ _ _)⟩

/-- C9: the commit applier submits nothing on an empty merged action list and
otherwise exactly one request, whose action list is the full merged list. -/
theorem commit_to_gitlab_spec (actions : List CommitAction) (branch msg : String) :
    (actions = [] → commit_to_gitlab actions branch msg = none) ∧
      (actions ≠ [] → ∃ req : CommitRequest,
        commit_to_gitlab actions branch msg = some req ∧
          req.branch = branch ∧ req.commit_message = msg ∧ req.actions = actions) := by
  constructor
  · intro h
    subst h
    rfl
  · intro h
    cases actions with
    | nil => exact absurd rfl h
    | cons a as => exact ⟨⟨branch, msg, a :: as⟩, rfl, rfl, rfl, rfl⟩

/-- Witness for C9 on an empty and on a one-action list. -/
theorem commit_to_gitlab_spec_witness :
    commit_to_gitlab [] "main" "msg" = none ∧
      ([deleteAct "db1/f.sql"] ≠ ([] : List CommitAction)) ∧
      (∃ req : CommitRequest,
        commit_to_gitlab [deleteAct "db1/f.sql"] "main" "msg" = some req ∧
          req.branch = "main" ∧ req.commit_message = "msg" ∧
          req.actions = [deleteAct "db1/f.sql"]) :=
  ⟨(commit_to_gitlab_spec [] "main" "msg").1 rfl, by decide,
   (commit_to_gitlab_spec [deleteAct "db1/f.sql"] "main" "msg").2 (by decide)⟩

/-- C10: the state-passing translation of prepare_commit_actions returns its
snapshot (rows and existing files) unchanged, and in the orchestrator loop
every namespace contributes the diff computed against the one original
existing-files snapshot, independently of the namespaces processed before it. -/
theorem prepare_frame_and_independence :
    (∀ (db : String) (s : SyncSnapshot), (prepare_commit_actions_st db s).2 = s) ∧
      (∀ (dbs : List String) (fetch : String → Except String FetchResult) (ex : List String),
        (processDatabases dbs fetch ex).1
            = (dbs.map (fun db =>
                match fetch db with
                | Except.error _ => []
                | Except.ok res =>
                  (prepare_commit_actions db res.proc_rows res.table_rows ex).1)).flatten ∧
          (processDatabases dbs fetch ex).2
            = dbs.filterMap (fun db =>
                match fetch db with
                | Except.error _ => none
                | Except.ok res =>
                  some (db, (prepare_commit_actions db res.proc_rows res.table_rows ex).2.1,
                    (prepare_commit_actions db res.proc_rows res.table_rows ex).2.2))) := by
  refine ⟨fun db s => rfl, ?_⟩
  intro dbs fetch ex
  induction dbs with
  | nil => exact ⟨rfl, rfl⟩
  | cons db rest ih =>
    cases hf : fetch db with
    | error e =>
      constructor
      · simp only [List.map_cons, List.flatten_cons, hf]
        simp only [processDatabases, hf]
        rw [ih.1]
        simp
      · simp only [List.filterMap_cons, hf]
        simp only [processDatabases, hf]
        exact ih.2
    | ok res =>
      constructor
      · simp only [List.map_cons, List.flatten_cons, hf]
        simp only [processDatabases, hf]
        rw [ih.1]
      · simp only [List.filterMap_cons, hf]
        simp only [processDatabases, hf]
        rw [ih.2]
